import Mathlib

/-!
Verification of the filesystem-route resolution core (route sorting, route-table
construction, and request dispatch).  The implementation module `fs_routes.ts`
is not part of the available sources; only its unit tests are.  The definitions
below are therefore modelled from the specification, with route paths
represented as segment lists (the string `"/foo/bar"` is the list
`["foo", "bar"]`), and are validated against the expected outputs recorded in
the repository's own unit tests (theorems `sort_matches_src_fixture` and
`sort_matches_src_extension_fixture` below reproduce the `sortRoutePaths`
test fixtures verbatim).
-/

namespace FreshSpec

/-- Modelled from the spec: the six supported HTTP methods (spec section 6). -/
inductive Method
| GET | POST | PATCH | PUT | DELETE | HEAD
deriving DecidableEq

/-- Modelled from the spec: an HTTP response (status, optional Content-Type
header, body), as produced by `handleRequest`. -/
structure Response where
  status : Nat
  contentType : Option String
  body : String
deriving DecidableEq

/-- Modelled from the spec: the per-request mutable `RequestContext`
(spec section 3): request method, captured parameters, shared mutable state
map, and the optional recorded error. -/
structure ReqCtx where
  method : Method
  params : List (String × String)
  state : List (String × String)
  error : Option String

/-- Read a key of the shared per-request state map (latest write wins). -/
def stateGet (ctx : ReqCtx) (k : String) : String :=
  ((ctx.state.find? (fun e => e.1 == k)).map (fun e => e.2)).getD ""

/-- Write a key of the shared per-request state map. -/
def stateSet (ctx : ReqCtx) (k v : String) : ReqCtx :=
  ⟨ctx.method, ctx.params, (k, v) :: ctx.state, ctx.error⟩

/-- Modelled from the spec: a render function.  It receives the request
context and the markup of the nested child component (`ctx.Component`) and
produces markup. -/
abbrev Component := ReqCtx → String → String

/-- Modelled from the spec: the possible outcomes of invoking a handler or a
middleware: an explicit `Response`, falling through to component rendering,
continuing the middleware chain, or a thrown failure. -/
inductive HandlerOut
| resp (r : Response)
| render
| next
| raise (msg : String)

/-- Modelled from the spec: a handler function; it may mutate the request
context (shared state) and yields an outcome. -/
abbrev Handler := ReqCtx → ReqCtx × HandlerOut

/-- Modelled from the spec: the `handlers` export of a route module: either a
single function (applying to every method) or a per-method map. -/
inductive HandlersExport
| fn (h : Handler)
| byMethod (f : Method → Option Handler)

/-- Modelled from the spec: per-route configuration options
(spec section 6): `skipAppWrapper` and `skipInheritedLayouts`. -/
structure Config where
  skipAppWrapper : Bool
  skipInheritedLayouts : Bool

/-- Modelled from the spec: the exports of a loaded route module
(spec section 6): `{ handler?, handlers?, default?, config? }`.  The `default`
component export is called `comp` here because `default` is reserved. -/
structure Module where
  handler : Option Handler
  handlers : Option HandlersExport
  comp : Option Component
  config : Option Config

/-- A discovered file entry: its path (directory segments followed by the
file-name stem, extensions already stripped by route-name derivation) and the
loaded module. -/
abbrev FileEntry := List String × Module

abbrev Files := List FileEntry

/-! ## PathMatcher -/

/-- Modelled from the spec: a compiled pattern segment — static text, a
dynamic `[param]` capture, or a trailing `[...rest]` catch-all. -/
inductive Seg
| static (s : String)
| param (name : String)
| catchAll (name : String)

/-- Modelled from the spec: classify one route-name segment into a pattern
segment: `[...name]` is a catch-all, `[name]` a dynamic parameter, anything
else static. -/
def segOfName (s : String) : Seg :=
  match s.data with
  | '[' :: '.' :: '.' :: '.' :: rest => Seg.catchAll (String.mk rest.dropLast)
  | '[' :: rest => Seg.param (String.mk rest.dropLast)
  | _ => Seg.static s

/-- Modelled from the spec: match a compiled pattern against a request path,
extracting captured parameters.  Matching is exact per segment count except
for a trailing catch-all, which captures zero or more trailing segments. -/
def matchPattern : List Seg → List String → Option (List (String × String))
  | [Seg.catchAll n], xs => some [(n, String.intercalate "/" xs)]
  | [], [] => some []
  | Seg.static s :: ps, x :: xs =>
    if s == x then matchPattern ps xs else none
  | Seg.param n :: ps, x :: xs =>
    (matchPattern ps xs).map (fun l => (n, x) :: l)
  | _, _ => none

/-! ## RouteSorter -/

/-- Modelled from the spec: the precedence class of a route-path segment used
by `sortRoutePaths` (spec section 4.2). -/
inductive SegClass
| errorFile | middlewareFile | layoutFile | indexFile | staticFile
| paramSeg | catchAllSeg
deriving DecidableEq

/-- Modelled from the spec: classify a route-path segment for sorting.
Underscore names split by their second character (so extension-carrying names
such as segments spelled underscore-layout-dot-js still classify as special,
as the repository's extension-sorting unit test requires). -/
def classOf (s : String) : SegClass :=
  match s.data with
  | '_' :: 'e' :: _ => SegClass.errorFile
  | '_' :: 'm' :: _ => SegClass.middlewareFile
  | '_' :: _ => SegClass.layoutFile
  | '[' :: '.' :: _ => SegClass.catchAllSeg
  | '[' :: _ => SegClass.paramSeg
  | _ => if s == "index" then SegClass.indexFile else SegClass.staticFile

/-- Numeric precedence rank of a segment class: lower ranks sort earlier. -/
def classRank : SegClass → Nat
  | SegClass.errorFile => 0
  | SegClass.middlewareFile => 1
  | SegClass.layoutFile => 2
  | SegClass.indexFile => 3
  | SegClass.staticFile => 4
  | SegClass.paramSeg => 5
  | SegClass.catchAllSeg => 6

/-- Plain lexicographic ordering on character lists. -/
def lexOrd : List Char → List Char → Ordering
  | [], [] => Ordering.eq
  | [], _ :: _ => Ordering.lt
  | _ :: _, [] => Ordering.gt
  | a :: as, b :: bs =>
    if a.toNat < b.toNat then Ordering.lt
    else if b.toNat < a.toNat then Ordering.gt
    else lexOrd as bs

/-- Modelled from the spec: compare two sibling segments — first by precedence
class, then lexicographically within the same class. -/
def compareSeg (a b : String) : Ordering :=
  if classRank (classOf a) < classRank (classOf b) then Ordering.lt
  else if classRank (classOf b) < classRank (classOf a) then Ordering.gt
  else lexOrd a.data b.data

/-- Modelled from the spec: `sortRoutePaths` — the total order over route
paths (represented as segment lists) used to order the route table.
When both paths agree on a common prefix and one of them ends, the shorter
path sorts after the longer one, matching the repository's `sortRoutePaths`
unit-test fixture (the spec's own prose states the opposite direction; the
fixture is authoritative). -/
def sortRoutePaths : List String → List String → Ordering
  | [], [] => Ordering.eq
  | [], _ :: _ => Ordering.gt
  | _ :: _, [] => Ordering.lt
  | a :: as, b :: bs =>
    match compareSeg a b with
    | Ordering.eq => sortRoutePaths as bs
    | o => o

/-- Boolean order relation derived from `sortRoutePaths`. -/
def pathLe (a b : List String) : Bool :=
  match sortRoutePaths a b with
  | Ordering.gt => false
  | _ => true

/-- Stable insertion into a sorted list. -/
def insSorted {α : Type} (le : α → α → Bool) (x : α) : List α → List α
  | [] => [x]
  | y :: ys => if le x y then x :: y :: ys else y :: insSorted le x ys

/-- Stable insertion sort with respect to a boolean order relation. -/
def sortByLe {α : Type} (le : α → α → Bool) (l : List α) : List α :=
  l.foldr (insSorted le) []

/-! ## RouteTree Builder -/

/-- Special file-name stems recognised by route classification. -/
def isSpecialName (s : String) : Bool :=
  s == "_app" || s == "_layout" || s == "_middleware" || s == "_error"

/-- The file-name stem of a file path (its last segment). -/
def lastName (p : List String) : String := p.getLastD ""

/-- Look up the module of the file at an exact path. -/
def findModule (files : Files) (p : List String) : Option Module :=
  (files.find? (fun f => f.1 == p)).map (fun f => f.2)

/-- All the directory prefixes of a directory path, root first, the directory
itself included. -/
def dirPrefixes : List String → List (List String)
  | [] => [[]]
  | x :: xs => [] :: (dirPrefixes xs).map (fun p => x :: p)

/-- Modelled from the spec: the middleware chain of a route — the `handler`
exports of every ancestor (and same-directory) `_middleware` module, in
root-to-leaf order. -/
def middlewaresFor (files : Files) (dir : List String) : List Handler :=
  (dirPrefixes dir).filterMap
    (fun p => (findModule files (p ++ ["_middleware"])).bind (fun m => m.handler))

/-- Modelled from the spec: walk the ancestor `_layout` modules root-to-leaf,
accumulating the layout chain and whether app-shell wrapping still applies.
A layout whose config sets `skipInheritedLayouts` clears the layouts gathered
above it (itself remaining); one that sets `skipAppWrapper` disables the app
shell for the subtree. -/
def layoutFold (files : Files) (dir : List String) : List Component × Bool :=
  (dirPrefixes dir).foldl
    (fun acc p =>
      match findModule files (p ++ ["_layout"]) with
      | none => acc
      | some m =>
        let cfg := (m.config).getD ⟨false, false⟩
        let ls := if cfg.skipInheritedLayouts then [] else acc.1
        let ua := if cfg.skipAppWrapper then false else acc.2
        match m.comp with
        | some c => (ls ++ [c], ua)
        | none => (ls, ua))
    ([], true)

/-- Modelled from the spec: the layout chain and app-shell applicability of a
route, after additionally honouring the route's own config flags. -/
def chainsFor (files : Files) (dir : List String) (cfg : Config) :
    List Component × Bool :=
  let r := layoutFold files dir
  (if cfg.skipInheritedLayouts then [] else r.1,
   if cfg.skipAppWrapper then false else r.2)

/-- An error boundary together with its own layout chain and app-shell flag
(used when the boundary renders its `default` component). -/
structure ErrBoundary where
  mod : Module
  layouts : List Component
  useApp : Bool

/-- Modelled from the spec: the error chain of a route — the ancestor
`_error` modules from the route's own directory walking upward to the root. -/
def boundariesFor (files : Files) (dir : List String) : List ErrBoundary :=
  (dirPrefixes dir).reverse.filterMap
    (fun p =>
      (findModule files (p ++ ["_error"])).map (fun m =>
        let cfg := (m.config).getD ⟨false, false⟩
        let r := chainsFor files p cfg
        ⟨m, r.1, r.2⟩))

/-- A fully composed route-table entry. -/
structure Route where
  pattern : List Seg
  mod : Module
  middlewares : List Handler
  layouts : List Component
  useApp : Bool
  boundaries : List ErrBoundary

/-- The route table: the optional root app shell and the sorted routes. -/
structure RouteTable where
  app : Option Component
  routes : List Route

/-- Modelled from the spec: compose one handler file into a route-table
entry.  An `index` stem maps to its directory path; any other stem to its own
path. -/
def mkRoute (files : Files) (f : FileEntry) : Route :=
  let dir := f.1.dropLast
  let name := lastName f.1
  let pathSegs := if name == "index" then dir else dir ++ [name]
  let cfg := (f.2.config).getD ⟨false, false⟩
  let r := chainsFor files dir cfg
  ⟨pathSegs.map segOfName, f.2, middlewaresFor files dir, r.1, r.2,
   boundariesFor files dir⟩

/-- Modelled from the spec: assemble the route table — classify files,
keep the handler files (special stems are not matchable routes), sort them
with `sortRoutePaths`, and compose each entry's chains.  Only the root-level
app shell is honoured. -/
def buildTable (files : Files) : RouteTable :=
  let hfiles := files.filter
    (fun f => !(f.1.isEmpty) && !(isSpecialName (lastName f.1)))
  let sorted := sortByLe (fun a b => pathLe a.1 b.1) hfiles
  ⟨(findModule files ["_app"]).bind (fun m => m.comp),
   sorted.map (mkRoute files)⟩

/-- Whether a module exports at least one of `handler`, `handlers`,
`default`, or `config`. -/
def hasRelevantExports (m : Module) : Bool :=
  m.handler.isSome || m.handlers.isSome || m.comp.isSome || m.config.isSome

/-- The character data of the build-error message for a module lacking all
relevant exports. -/
def msgData (p : List String) : List Char :=
  "Route at /".data ++
    ((String.intercalate "/" p).data ++ " does not have relevant exports.".data)

/-- Modelled from the spec: `buildRouteTable` — validate that every module
has at least one relevant export, failing with a descriptive error otherwise,
and produce the sorted route table. -/
def buildRouteTable (files : Files) : Except String RouteTable :=
  match files.find? (fun f => !(hasRelevantExports f.2)) with
  | some f => Except.error (String.mk (msgData f.1))
  | none => Except.ok (buildTable files)

/-! ## Dispatcher and Render Composer -/

/-- Modelled from the spec: the method mapping of a route module: a
per-method `handlers` map applies only to its listed methods; a single
`handlers` function and a direct `handler` export apply to every method; a
`default` component without `handlers` maps only `GET` to rendering. -/
def methodFor (m : Module) (method : Method) : Option Handler :=
  match m.handlers with
  | some (HandlersExport.fn h) => some h
  | some (HandlersExport.byMethod f) => f method
  | none =>
    match m.handler with
    | some h => some h
    | none =>
      match m.comp with
      | some _ =>
        match method with
        | Method.GET => some (fun ctx => (ctx, HandlerOut.render))
        | _ => none
      | none => none

/-- The outcome of running the middleware chain and handler: either a
finished response or a failure carrying the context and the thrown message. -/
inductive Outcome
| done (r : Response)
| failed (ctx : ReqCtx) (msg : String)

/-- Modelled from the spec: execute the middleware chain in root-to-leaf
order.  Each middleware may continue the chain (with a possibly mutated
context), short-circuit with its own response, or fail. -/
def runChain : List Handler → ReqCtx → (ReqCtx → Outcome) → Outcome
  | [], ctx, k => k ctx
  | h :: rest, ctx, k =>
    match h ctx with
    | (ctx', HandlerOut.next) => runChain rest ctx' k
    | (_, HandlerOut.resp r) => Outcome.done r
    | (ctx', HandlerOut.raise m) => Outcome.failed ctx' m
    | (ctx', HandlerOut.render) =>
      Outcome.failed ctx' "middleware did not return a response"

/-- Modelled from the spec: the Render Composer — fold the layout chain from
innermost to outermost around the leaf markup and finally wrap with the root
app shell unless suppressed. -/
def composeMarkup (app : Option Component) (useApp : Bool)
    (layouts : List Component) (ctx : ReqCtx) (leaf : String) : String :=
  let inner := layouts.foldr (fun l acc => l ctx acc) leaf
  match app, useApp with
  | some a, true => a ctx inner
  | _, _ => inner

/-- Render a component result into an HTML response through the composer. -/
def renderMarkup (app : Option Component) (layouts : List Component)
    (useApp : Bool) (comp : Option Component) (ctx : ReqCtx) : Response :=
  let leaf := match comp with
    | some c => c ctx ""
    | none => ""
  ⟨200, some "text/html; charset=utf-8", composeMarkup app useApp layouts ctx leaf⟩

/-- The continuation run after the middleware chain: invoke the route's
handler; an explicit response is returned unwrapped, a component result is
rendered through the composer, a failure is propagated. -/
def routeK (app : Option Component) (r : Route) (h : Handler)
    (ctx : ReqCtx) : Outcome :=
  match h ctx with
  | (_, HandlerOut.resp resp) => Outcome.done resp
  | (ctx', HandlerOut.render) =>
    Outcome.done (renderMarkup app r.layouts r.useApp r.mod.comp ctx')
  | (ctx', HandlerOut.raise m) => Outcome.failed ctx' m
  | (ctx', HandlerOut.next) =>
    Outcome.failed ctx' "handler called next outside middleware"

/-- The handler a boundary's `handlers` export provides for a method. -/
def boundaryHandler (m : Module) (method : Method) : Option Handler :=
  match m.handlers with
  | some (HandlersExport.fn h) => some h
  | some (HandlersExport.byMethod f) => f method
  | none => none

/-- Modelled from the spec: invoke one error boundary with the failure
recorded in the context.  Its `handlers` export takes precedence; a failure
of the boundary itself escalates; otherwise its `default` component renders
through the composer with the boundary's own layout chain. -/
def runBoundary (app : Option Component) (b : ErrBoundary) (ctx : ReqCtx)
    (msg : String) : Outcome :=
  match boundaryHandler b.mod ctx.method with
  | some h =>
    match h ctx with
    | (_, HandlerOut.resp resp) => Outcome.done resp
    | (ctx', HandlerOut.render) =>
      Outcome.done (renderMarkup app b.layouts b.useApp b.mod.comp ctx')
    | (ctx', HandlerOut.raise m) => Outcome.failed ctx' m
    | (ctx', HandlerOut.next) => Outcome.failed ctx' msg
  | none =>
    match b.mod.comp with
    | some _ =>
      Outcome.done (renderMarkup app b.layouts b.useApp b.mod.comp ctx)
    | none => Outcome.failed ctx msg

/-- Modelled from the spec: walk the error chain from the failing route's own
directory upward, recording the failure in the context's error field before
each boundary; an unrecovered failure at the root becomes an internal
failure response. -/
def runBoundaries (app : Option Component) :
    List ErrBoundary → ReqCtx → String → Response
  | [], _, _ => ⟨500, none, "Internal Server Error"⟩
  | b :: rest, ctx, msg =>
    let ctx' : ReqCtx := ⟨ctx.method, ctx.params, ctx.state, some msg⟩
    match runBoundary app b ctx' msg with
    | Outcome.done r => r
    | Outcome.failed ctx'' m => runBoundaries app rest ctx'' m

/-- First route of the sorted table whose pattern matches the request path. -/
def firstMatch : List Route → List String → Option (Route × List (String × String))
  | [], _ => none
  | r :: rest, path =>
    match matchPattern r.pattern path with
    | some ps => some (r, ps)
    | none => firstMatch rest path

/-- Modelled from the spec: `handleRequest` — resolve the first matching
route, reject unmapped methods with 405, run the middleware chain and
handler, render components through the composer, and fall back through the
error chain on failure. -/
def handleRequest (t : RouteTable) (method : Method) (path : List String) :
    Response :=
  match firstMatch t.routes path with
  | none => ⟨404, none, "Not Found"⟩
  | some (r, params) =>
    match methodFor r.mod method with
    | none => ⟨405, none, ""⟩
    | some h =>
      let ctx : ReqCtx := ⟨method, params, [], none⟩
      match runChain r.middlewares ctx (routeK t.app r h) with
      | Outcome.done resp => resp
      | Outcome.failed ctx' msg => runBoundaries t.app r.boundaries ctx' msg

/-- Build the table from the file set and handle one request; `none` when
route-table construction fails. -/
def serve (files : Files) (method : Method) (path : List String) :
    Option Response :=
  match buildRouteTable files with
  | Except.error _ => none
  | Except.ok t => some (handleRequest t method path)

/-! ## Substring containment (used to state the build-error message claim) -/

/-- Whether the second character list is an exact leading block of the first. -/
def startsWithL : List Char → List Char → Bool
  | _, [] => true
  | [], _ :: _ => false
  | a :: as, b :: bs => a == b && startsWithL as bs

/-- Whether the second character list occurs contiguously in the first. -/
def containsSub : List Char → List Char → Bool
  | [], needle => startsWithL [] needle
  | h :: t, needle => startsWithL (h :: t) needle || containsSub t needle

/-! ## Fixtures mirroring the repository's unit tests -/

/-- A module with no exports at all. -/
def emptyModule : Module := ⟨none, none, none, none⟩

/-- A module exporting only a `default` component. -/
def modOfComp (c : Component) : Module := ⟨none, none, some c, none⟩

/-- A module exporting only a direct `handler` function. -/
def modOfHandler (h : Handler) : Module := ⟨some h, none, none, none⟩

/-- A module exporting `handlers` as a single function. -/
def modOfFn (h : Handler) : Module := ⟨none, some (HandlersExport.fn h), none, none⟩

/-- A handler that throws the given message. -/
def raiseH (m : String) : Handler := fun ctx => (ctx, HandlerOut.raise m)

/-- A handler returning a plain 200 response with the given body. -/
def respBody (b : String) : Handler :=
  fun ctx => (ctx, HandlerOut.resp ⟨200, none, b⟩)

/-- A handler returning a fixed response. -/
def respConst (r : Response) : Handler := fun ctx => (ctx, HandlerOut.resp r)

/-- The route-path fixture of the repository's `sortRoutePaths` unit test
(paths as segment lists). -/
def srcSortInput : List (List String) :=
  [["foo", "[id]"], ["foo", "[...slug]"], ["foo", "bar"], ["foo", "_layout"],
   ["foo", "index"], ["foo", "_middleware"], ["foo", "bar", "_middleware"],
   ["foo", "_error"], ["foo", "bar", "index"], ["foo", "bar", "_error"],
   ["_error"], ["foo", "bar", "[...foo]"], ["foo", "bar", "baz"],
   ["foo", "bar", "_layout"]]

/-- The expected sorted order recorded by the repository's `sortRoutePaths`
unit test. -/
def srcSortExpected : List (List String) :=
  [["_error"], ["foo", "_error"], ["foo", "_middleware"], ["foo", "_layout"],
   ["foo", "index"], ["foo", "bar", "_error"], ["foo", "bar", "_middleware"],
   ["foo", "bar", "_layout"], ["foo", "bar", "index"], ["foo", "bar", "baz"],
   ["foo", "bar", "[...foo]"], ["foo", "bar"], ["foo", "[id]"],
   ["foo", "[...slug]"]]

/-- The extension-carrying fixture of the `sortRoutePaths` unit test. -/
def srcSortInputExt : List (List String) :=
  [["js", "index.js"], ["js", "_layout.js"], ["jsx", "index.jsx"],
   ["jsx", "_layout.jsx"], ["ts", "index.ts"], ["ts", "_layout.tsx"],
   ["tsx", "index.tsx"], ["tsx", "_layout.tsx"]]

/-- The expected sorted order of the extension-carrying fixture. -/
def srcSortExpectedExt : List (List String) :=
  [["js", "_layout.js"], ["js", "index.js"], ["jsx", "_layout.jsx"],
   ["jsx", "index.jsx"], ["ts", "_layout.tsx"], ["ts", "index.ts"],
   ["tsx", "_layout.tsx"], ["tsx", "index.tsx"]]

/-- A dynamic `[id]` route and a static `all` sibling, dynamic declared
first (mirrors the `sorts routes` unit test). -/
def fixStaticDyn1 (r1 r2 : Response) : Files :=
  [(["[id]"], modOfHandler (respConst r2)),
   (["all"], modOfHandler (respConst r1))]

/-- The same two sibling routes with the declaration order swapped. -/
def fixStaticDyn2 (r1 r2 : Response) : Files :=
  [(["all"], modOfHandler (respConst r1)),
   (["[id]"], modOfHandler (respConst r2))]

/-- Select the body mapped to a method out of six per-method options. -/
def selBodies (oG oP oPa oPu oD oH : Option String) : Method → Option String
  | Method.GET => oG
  | Method.POST => oP
  | Method.PATCH => oPa
  | Method.PUT => oPu
  | Method.DELETE => oD
  | Method.HEAD => oH

/-- A single route whose `handlers` export is a method map built from six
per-method optional bodies (mirrors the `registers HTTP methods` test). -/
def fixByMethod (oG oP oPa oPu oD oH : Option String) : Files :=
  [(["all"],
    ⟨none,
     some (HandlersExport.byMethod
       (fun m => (selBodies oG oP oPa oPu oD oH m).map respBody)),
     none, none⟩)]

/-- A single route whose `handlers` export is one function (mirrors the
`registers fn handler for every method` test). -/
def fixFnAll (r : Response) : Files := [(["all"], modOfFn (respConst r))]

/-- A throwing index route under a root `_error` boundary whose component
renders the recorded error (mirrors the `_error` test). -/
def fixErrRender (msg : String) : Files :=
  [(["_error"], modOfComp (fun ctx _ => ctx.error.getD "")),
   (["index"], modOfFn (raiseH msg))]

/-- Nested boundaries: the root boundary fails, the nearer `foo` boundary
answers with the recorded error (mirrors the `_error nested` test). -/
def fixErrNested (msg : String) : Files :=
  [(["_error"], modOfFn (raiseH "fail")),
   (["foo", "_error"],
    modOfFn (fun ctx => (ctx, HandlerOut.resp ⟨200, none, ctx.error.getD ""⟩))),
   (["foo", "index"], modOfFn (raiseH msg))]

/-- Nested boundaries where the nearer boundary itself throws and the root
boundary answers (mirrors the `_error nested throw` test). -/
def fixErrEscalate (msg : String) : Files :=
  [(["_error"],
    modOfFn (fun ctx => (ctx, HandlerOut.resp ⟨200, none, ctx.error.getD ""⟩))),
   (["foo", "_error"], modOfFn (raiseH msg)),
   (["foo", "index"], modOfFn (raiseH msg))]

/-- App shell plus one root layout around a leaf (mirrors the
`prepend _layout` test). -/
def fixLayoutA : Files :=
  [(["foo", "bar"], modOfComp (fun _ _ => "foo_bar")),
   (["_layout"], modOfComp (fun _ ch => "layout/" ++ ch)),
   (["_app"], modOfComp (fun _ ch => "app/" ++ ch))]

/-- App shell plus root and nested layouts around a leaf (mirrors the
`nested _layout` test). -/
def fixLayoutB : Files :=
  (["foo", "_layout"], modOfComp (fun _ ch => "layout_foo_bar/" ++ ch)) ::
    fixLayoutA

/-- An intermediate layout with `skipAppWrapper` and `skipInheritedLayouts`
set (mirrors the `_layout disable _app + inherited _layouts` test). -/
def fixSkipMid : Files :=
  [(["sub", "sub2", "index"], modOfComp (fun _ _ => "sub_sub2")),
   (["sub", "sub2", "_layout"], modOfComp (fun _ ch => "layout_sub_sub2/" ++ ch)),
   (["sub", "_layout"],
    ⟨none, none, some (fun _ ch => "layout_sub/" ++ ch), some ⟨true, true⟩⟩),
   (["_layout"], modOfComp (fun _ ch => "layout/" ++ ch)),
   (["_app"], modOfComp (fun _ ch => "app/" ++ ch))]

/-- A leaf route whose own config sets `skipInheritedLayouts` (mirrors the
`route overrides _layout` test). -/
def fixSkipRoute : Files :=
  [(["index"], ⟨none, none, some (fun _ _ => "route"), some ⟨false, true⟩⟩),
   (["_layout"], modOfComp (fun _ ch => "layout/" ++ ch))]

/-- A root middleware writing the state text and a nested middleware
appending to it, over a component-only leaf (mirrors the
`nested middlewares` test). -/
def fixMwChain (a b : String) : Files :=
  [(["_middleware"],
    modOfHandler (fun ctx => (stateSet ctx "text" a, HandlerOut.next))),
   (["foo", "_middleware"],
    modOfHandler (fun ctx =>
      (stateSet ctx "text" (stateGet ctx "text" ++ b), HandlerOut.next))),
   (["foo", "index"], modOfComp (fun ctx _ => stateGet ctx "text"))]

/-- A root middleware answering directly without continuing, above an
arbitrary nested middleware and an arbitrary leaf handler. -/
def fixMwShort (r : Response) (h2 h3 : Handler) : Files :=
  [(["_middleware"], modOfHandler (respConst r)),
   (["foo", "_middleware"], modOfHandler h2),
   (["foo", "index"], modOfFn h3)]

/-- A single file whose module has no relevant exports (mirrors the
`throws error when file has no exports` test). -/
def fixNoExports : Files := [(["index"], emptyModule)]

/-- A single route exporting a `default` component only (mirrors the
`renders component without handler` test). -/
def fixCompOnly (c : String) : Files := [(["all"], modOfComp (fun _ _ => c))]

/-- A root `_error` entry with an arbitrary component next to a successful
component-only index route (mirrors the `skip _error component in
non-error` test). -/
def fixNonError (e : Component) (c : String) : Files :=
  [(["_error"], modOfComp e),
   (["index"], modOfComp (fun _ _ => c))]

/-! ## Helper lemmas -/

theorem lexOrd_refl (l : List Char) : lexOrd l l = Ordering.eq := by
  induction l with
  | nil => rfl
  | cons a as ih => simp [lexOrd, Nat.lt_irrefl, ih]

theorem compareSeg_refl (s : String) : compareSeg s s = Ordering.eq := by
  simp [compareSeg, Nat.lt_irrefl, lexOrd_refl]

theorem compareSeg_lt_of_rank (a b : String)
    (h : classRank (classOf a) < classRank (classOf b)) :
    compareSeg a b = Ordering.lt := by
  simp [compareSeg, h]

theorem compareSeg_lt_of_static_lex (a b : String)
    (ha : classOf a = SegClass.staticFile) (hb : classOf b = SegClass.staticFile)
    (hlex : lexOrd a.data b.data = Ordering.lt) :
    compareSeg a b = Ordering.lt := by
  simp [compareSeg, ha, hb, classRank, Nat.lt_irrefl, hlex]

theorem sortRoutePaths_lt_of_rank (p : List String) (s1 s2 : String)
    (t1 t2 : List String)
    (h : classRank (classOf s1) < classRank (classOf s2)) :
    sortRoutePaths (p ++ s1 :: t1) (p ++ s2 :: t2) = Ordering.lt := by
  induction p with
  | nil => simp [sortRoutePaths, compareSeg_lt_of_rank s1 s2 h]
  | cons x xs ih => simp [sortRoutePaths, compareSeg_refl, ih]

theorem sortRoutePaths_lt_of_static_lex (p : List String) (s1 s2 : String)
    (t1 t2 : List String)
    (ha : classOf s1 = SegClass.staticFile) (hb : classOf s2 = SegClass.staticFile)
    (hlex : lexOrd s1.data s2.data = Ordering.lt) :
    sortRoutePaths (p ++ s1 :: t1) (p ++ s2 :: t2) = Ordering.lt := by
  induction p with
  | nil => simp [sortRoutePaths, compareSeg_lt_of_static_lex s1 s2 ha hb hlex]
  | cons x xs ih => simp [sortRoutePaths, compareSeg_refl, ih]

theorem containsSub_append_left (xs ys n : List Char)
    (h : containsSub ys n = true) : containsSub (xs ++ ys) n = true := by
  induction xs with
  | nil => simpa using h
  | cons x t ih => simp [containsSub, ih]

theorem find?_some_of_mem {α : Type} (p : α → Bool) (l : List α) (x : α)
    (hmem : x ∈ l) (hx : p x = true) : ∃ y, l.find? p = some y := by
  induction l with
  | nil => cases hmem
  | cons a as ih =>
    by_cases h : p a = true
    · exact ⟨a, by simp [List.find?_cons_of_pos _ h]⟩
    · have hmem' : x ∈ as := by
        cases hmem with
        | head => exact absurd hx h
        | tail _ hm => exact hm
      obtain ⟨y, hy⟩ := ih hmem'
      refine ⟨y, ?_⟩
      rw [List.find?_cons_of_neg _ (by simpa using h)]
      exact hy

/-- The model reproduces the repository's `sortRoutePaths` unit-test
fixture verbatim. -/
theorem sort_matches_src_fixture :
    sortByLe pathLe srcSortInput = srcSortExpected := by decide

/-- The model reproduces the extension-carrying half of the repository's
`sortRoutePaths` unit test verbatim. -/
theorem sort_matches_src_extension_fixture :
    sortByLe pathLe srcSortInputExt = srcSortExpectedExt := by decide

/-! ## Claims -/

/-- C1 (counterexample): the claim places `index` among the static names
compared lexicographically, so it predicts that the sibling `bar` (which is
lexicographically smaller than `index`) sorts before `index`; the code's
order is the opposite — `index` is its own precedence class before the other
static names, as the repository's sort fixture records. -/
theorem C1_counterexample :
    sortRoutePaths ["foo", "bar"] ["foo", "index"] = Ordering.gt ∧
    lexOrd "bar".data "index".data = Ordering.lt := by decide

/-- C1 (amended): siblings at the same directory level order by the fixed
precedence `_error` < `_middleware` < `_layout` < `index` < other static
names (compared lexicographically) < dynamic `[param]` < catch-all
`[...rest]`; consequently a static route at a given depth is dispatched in
preference to a dynamic `[param]` sibling regardless of file declaration
order. -/
theorem C1_sibling_precedence_and_dispatch :
    (∀ (p : List String) (s1 s2 : String) (t1 t2 : List String),
        classRank (classOf s1) < classRank (classOf s2) →
        sortRoutePaths (p ++ s1 :: t1) (p ++ s2 :: t2) = Ordering.lt) ∧
    (∀ (p : List String) (s1 s2 : String) (t1 t2 : List String),
        classOf s1 = SegClass.staticFile → classOf s2 = SegClass.staticFile →
        lexOrd s1.data s2.data = Ordering.lt →
        sortRoutePaths (p ++ s1 :: t1) (p ++ s2 :: t2) = Ordering.lt) ∧
    (∀ r1 r2 : Response,
        serve (fixStaticDyn1 r1 r2) Method.GET ["all"] = some r1 ∧
        serve (fixStaticDyn2 r1 r2) Method.GET ["all"] = some r1) :=
  ⟨sortRoutePaths_lt_of_rank,
   sortRoutePaths_lt_of_static_lex,
   fun _ _ => ⟨rfl, rfl⟩⟩

/-- C1 (witness): the precedence part applied at `_error` versus `index`. -/
theorem C1_sibling_precedence_and_dispatch_witness :
    classRank (classOf "_error") < classRank (classOf "index") ∧
    sortRoutePaths ["_error"] ["index"] = Ordering.lt :=
  ⟨by decide,
   C1_sibling_precedence_and_dispatch.1 [] "_error" "index" [] [] (by decide)⟩

/-- C2 (counterexample): the claim predicts that the strict ancestor
`/foo/bar` sorts before its descendant `/foo/bar/baz`; the code sorts the
ancestor after the descendant, as the repository's sort fixture records. -/
theorem C2_counterexample :
    sortRoutePaths ["foo", "bar"] ["foo", "bar", "baz"] = Ordering.gt ∧
    sortRoutePaths ["foo", "bar"] ["foo", "bar", "baz"] ≠ Ordering.lt := by
  decide

/-- C2 (amended): for every two route paths A and B, if A is a strict
ancestor directory of B then `sortRoutePaths` orders A after B. -/
theorem C2_ancestor_after_descendants (a : List String) (s : String)
    (t : List String) :
    sortRoutePaths a (a ++ s :: t) = Ordering.gt := by
  induction a with
  | nil => rfl
  | cons x xs ih => simp [sortRoutePaths, compareSeg_refl, ih]

/-- C3: a `handlers` method map serves exactly its mapped methods (each with
its handler's 200 response and body) and answers 405 for every other of the
six supported methods; a single `handlers` function serves all six
methods. -/
theorem C3_method_mapping :
    (∀ (oG oP oPa oPu oD oH : Option String) (m : Method),
        serve (fixByMethod oG oP oPa oPu oD oH) m ["all"] =
          match selBodies oG oP oPa oPu oD oH m with
          | some b => some ⟨200, none, b⟩
          | none => some ⟨405, none, ""⟩) ∧
    (∀ (r : Response) (m : Method),
        serve (fixFnAll r) m ["all"] = some r) := by
  constructor
  · intro oG oP oPa oPu oD oH m
    cases m
    · cases oG <;> rfl
    · cases oP <;> rfl
    · cases oPa <;> rfl
    · cases oPu <;> rfl
    · cases oD <;> rfl
    · cases oH <;> rfl
  · intro r m
    cases m <;> rfl

/-- C4: a throwing handler is recovered through the nearest applicable
`_error` boundary with the failure recorded in the context's error field: a
boundary component rendering the recorded error yields the thrown message as
the body; nested boundaries are tried nearest first; a boundary whose own
handlers throws escalates to the next boundary up. -/
theorem C4_error_boundaries (msg : String) :
    serve (fixErrRender msg) Method.GET [] =
      some ⟨200, some "text/html; charset=utf-8", msg⟩ ∧
    serve (fixErrNested msg) Method.GET ["foo"] = some ⟨200, none, msg⟩ ∧
    serve (fixErrEscalate msg) Method.GET ["foo"] = some ⟨200, none, msg⟩ :=
  ⟨rfl, rfl, rfl⟩

/-- C5: layouts nest in root-to-leaf order with the app shell outermost:
with an `_app` and a root `_layout` each emitting `name/child`, `/foo/bar`
renders `app/layout/foo_bar`, and with an additional `foo/_layout` it
renders `app/layout/layout_foo_bar/foo_bar`. -/
theorem C5_layout_nesting :
    serve fixLayoutA Method.GET ["foo", "bar"] =
      some ⟨200, some "text/html; charset=utf-8", "app/layout/foo_bar"⟩ ∧
    serve fixLayoutB Method.GET ["foo", "bar"] =
      some ⟨200, some "text/html; charset=utf-8",
        "app/layout/layout_foo_bar/foo_bar"⟩ :=
  ⟨rfl, rfl⟩

/-- C6: `skipInheritedLayouts` on an intermediate `_layout` truncates the
chain there (that layout and the ones below it still render; the ones above
it and, with `skipAppWrapper`, the app shell do not), and
`skipInheritedLayouts` on the route itself drops every ancestor layout. -/
theorem C6_skip_inherited_layouts :
    serve fixSkipMid Method.GET ["sub", "sub2"] =
      some ⟨200, some "text/html; charset=utf-8",
        "layout_sub/layout_sub_sub2/sub_sub2"⟩ ∧
    serve fixSkipRoute Method.GET [] =
      some ⟨200, some "text/html; charset=utf-8", "route"⟩ :=
  ⟨rfl, rfl⟩

/-- C7: middlewares run in root-to-leaf order before the route, their state
mutations are visible downstream (a root write of `a` followed by a nested
append of `b` reaches a component-only leaf as `a ++ b`), and a middleware
that answers without continuing short-circuits the rest of the chain and the
handler. -/
theorem C7_middleware_chain :
    (∀ a b : String,
        serve (fixMwChain a b) Method.GET ["foo"] =
          some ⟨200, some "text/html; charset=utf-8", a ++ b⟩) ∧
    (∀ (r : Response) (h2 h3 : Handler),
        serve (fixMwShort r h2 h3) Method.GET ["foo"] = some r) :=
  ⟨fun _ _ => rfl, fun _ _ _ => rfl⟩

/-- C8: a file whose module exports none of `handler`, `handlers`,
`default`, or `config` makes route-table construction fail with an error
message mentioning "relevant exports", and no table is produced. -/
theorem C8_missing_exports (files : Files) (f : FileEntry)
    (hmem : f ∈ files) (hbad : hasRelevantExports f.2 = false) :
    ∃ e, buildRouteTable files = Except.error e ∧
      containsSub e.data ("relevant exports".data) = true := by
  obtain ⟨y, hy⟩ :=
    find?_some_of_mem (fun g => !(hasRelevantExports g.2)) files f hmem
      (by simp [hbad])
  refine ⟨String.mk (msgData y.1), ?_, ?_⟩
  · unfold buildRouteTable
    rw [hy]
  · show containsSub (msgData y.1) ("relevant exports".data) = true
    unfold msgData
    exact containsSub_append_left _ _ _
      (containsSub_append_left _ _ _ (by decide))

/-- C8 (witness): the empty module at `routes/index` fails construction. -/
theorem C8_missing_exports_witness :
    hasRelevantExports emptyModule = false ∧
    (∃ e, buildRouteTable fixNoExports = Except.error e ∧
      containsSub e.data ("relevant exports".data) = true) :=
  ⟨rfl,
   C8_missing_exports fixNoExports (["index"], emptyModule)
     (List.Mem.head _) rfl⟩

/-- C9: a route exporting only a `default` component maps only `GET`, whose
response is 200 with `Content-Type: text/html; charset=utf-8` and the
rendered markup as body; every other supported method yields 405. -/
theorem C9_component_get_only (c : String) (m : Method) :
    serve (fixCompOnly c) m ["all"] =
      if m = Method.GET
      then some ⟨200, some "text/html; charset=utf-8", c⟩
      else some ⟨405, none, ""⟩ := by
  cases m <;> rfl

/-- C10: a successful request never invokes the `default` component of an
`_error` route — the response is the sibling route's own rendering for every
possible error component. -/
theorem C10_error_component_not_invoked (e : Component) (c : String) :
    serve (fixNonError e c) Method.GET [] =
      some ⟨200, some "text/html; charset=utf-8", c⟩ :=
  rfl

end FreshSpec
